import Mathlib

/-!
Verification of the `aws-secrets-manager-wrapper` facade
(`src/aws-secret-manager.ts`, helpers in `utils.ts` / `error.ts`).

The wrapper is a stateless facade over the AWS Secrets Manager client:
every method builds one request, sends it, and post-processes the
response or the thrown error.  The embedding below models one call of
each method as a pure function taking the client's outcome
(`Except JsError <Response>`) as an argument.  JavaScript built-ins used
by the source — JSON.parse / JSON.stringify — are modelled as an explicit
`JsonRuntime` record of functions, and JS truthiness of optional string
fields (`undefined` and `""` are falsy) is made explicit.
-/

/-- A JavaScript value, as far as this wrapper manipulates them:
secret payloads are either raw strings or values produced by
`JSON.parse`. -/
inductive JsValue where
  | str : String → JsValue
  | num : Int → JsValue
  | bool : Bool → JsValue
  | null : JsValue
deriving Repr, DecidableEq

/-- The JavaScript JSON built-ins used by the source (`JSON.parse`
throws on invalid input, hence `Option`; `JSON.stringify` on the
values the wrapper serializes yields a string). -/
structure JsonRuntime where
  jsonParse : String → Option JsValue
  jsonStringify : JsValue → String

/-- A thrown JavaScript `Error`, as inspected by the source
(`error.name`, `error.message`). -/
structure JsError where
  name : String
  message : String
deriving Repr, DecidableEq

/-- Type `SecretsManagerError` from `error.ts`: a message plus the optional
original error. -/
structure SecretsManagerError where
  message : String
  originalError : Option JsError
deriving Repr, DecidableEq

/-- The class `SecretsManagerError` sets `this.name = "SecretsManagerError"`; this is how a
`SecretsManagerError` looks when re-inspected as a generic `Error`
(name and message fields). -/
def SecretsManagerError.toJsError (e : SecretsManagerError) : JsError :=
  ⟨"SecretsManagerError", e.message⟩

/-- Method `AWSSecretsManager.formatError`: wraps the cause when it is an
`Error` instance. -/
def formatError (message : String) (error : Option JsError) : SecretsManagerError :=
  match error with
  | some e => ⟨message, some e⟩
  | none => ⟨message, none⟩

/-- JavaScript `String.prototype.includes(sub)`. -/
def stringIncludes (s sub : String) : Bool :=
  decide (sub.toList <:+: s.toList)

/-- JS truthiness of an optional string field: `undefined` and the
empty string are falsy. -/
def strTruthy : Option String → Bool
  | some s => !s.isEmpty
  | none => false

/-- Function `parseSecretValue` from `utils.ts`: best-effort `JSON.parse`,
falling back to the raw string when parsing throws. -/
def parseSecretValue (rt : JsonRuntime) (value : String) : JsValue :=
  match rt.jsonParse value with
  | some v => v
  | none => .str value

/-- Type `GetSecretOptions` from `types.ts` (`parse?: boolean`,
`version?: string`). -/
structure GetSecretOptions where
  parse : Option Bool
  version : Option String
deriving Repr, DecidableEq

/-- The default value of the `options` parameter of `getSecret`
(`options: GetSecretOptions = { parse: true }`), used only when the
caller omits the argument entirely. -/
def getSecretDefaultOptions : GetSecretOptions :=
  ⟨some true, none⟩

/-- The `GetSecretValueCommand` input built by `getSecret`. -/
structure GetSecretValueRequest where
  SecretId : String
  VersionId : Option String
deriving Repr, DecidableEq

/-- Request construction in `getSecret`. -/
def getSecretRequest (secretName : String) (options : GetSecretOptions) :
    GetSecretValueRequest :=
  ⟨secretName, options.version⟩

/-- The fields of the `GetSecretValue` response inspected by the
source.  `SecretBinary` is a byte blob; only its presence matters. -/
structure GetSecretValueResponse where
  SecretString : Option String
  SecretBinary : Option (List Nat)
deriving Repr, DecidableEq

/-- The `catch` block of `getSecret`: error-name dispatch.  Both client
errors and the internally thrown binary-payload `SecretsManagerError`
reach this block (the latter with name `"SecretsManagerError"`, which
matches no branch and is re-wrapped by `formatError`). -/
def getSecretHandleError (secretName : String) (error : JsError) : SecretsManagerError :=
  if error.name = "InvalidRequestException" ∧
      stringIncludes error.message "marked for deletion" then
    ⟨"The requested secret is marked for deletion and cannot be accessed.", some error⟩
  else if error.name = "ResourceNotFoundException" then
    ⟨"Secret \"" ++ secretName ++ "\" not found.", some error⟩
  else if error.name = "AccessDeniedException" then
    ⟨"Access denied to the requested secret.", some error⟩
  else if error.name = "ThrottlingException" then
    ⟨"Request throttled. Try again later.", some error⟩
  else
    formatError "Failed to retrieve secret" (some error)

/-- Method `AWSSecretsManager.getSecret`, one call: `send` is the outcome of
`this.client.send(command)`.  A truthy `SecretString` is returned
(JSON-parsed when `options.parse` is truthy, falling back to the raw
string when parsing throws); otherwise the method throws
`SecretsManagerError("Binary secrets are not supported")`, which its
own `catch` block then re-wraps. -/
def getSecret (rt : JsonRuntime) (secretName : String) (options : GetSecretOptions)
    (send : Except JsError GetSecretValueResponse) :
    Except SecretsManagerError JsValue :=
  match send with
  | .error e => .error (getSecretHandleError secretName e)
  | .ok response =>
    match response.SecretString with
    | some s =>
      if s = "" then
        .error (getSecretHandleError secretName
          (SecretsManagerError.toJsError ⟨"Binary secrets are not supported", none⟩))
      else if options.parse.getD false then
        match rt.jsonParse s with
        | some v => .ok v
        | none => .ok (.str s)
      else
        .ok (.str s)
    | none =>
      .error (getSecretHandleError secretName
        (SecretsManagerError.toJsError ⟨"Binary secrets are not supported", none⟩))

/-- A concrete JSON runtime for witnesses and counterexamples (mirrors
`JSON.parse` / `JSON.stringify` on the few values those tests use). -/
def mockJsonRuntime : JsonRuntime where
  jsonParse := fun s =>
    if s = "1" then some (.num 1)
    else if s = "7" then some (.num 7)
    else if s = "null" then some .null
    else none
  jsonStringify := fun v =>
    match v with
    | .str s => s
    | .num n => toString n
    | .bool b => toString b
    | .null => "null"

/-- JavaScript object-key assignment `m[k] = v` on a string-keyed
object, modelled as an insertion-ordered association list: an existing
key is overwritten in place, a new key is appended. -/
def setKey {α : Type} (m : List (String × α)) (k : String) (v : α) :
    List (String × α) :=
  if m.any (fun p => p.1 = k) then
    m.map (fun p => if p.1 = k then (k, v) else p)
  else
    m ++ [(k, v)]

/-- Type `BatchGetSecretOptions` from `types.ts`. -/
structure BatchGetSecretOptions where
  secretIds : List String
  filters : Option (List (String × List String))
  maxResults : Option Nat
  nextToken : Option String
  parse : Option Bool

/-- One entry of the `BatchGetSecretValue` response's `SecretValues`
list (AWS SDK `SecretValueEntry`; every field optional). -/
structure SecretValueEntry where
  Name : Option String
  SecretString : Option String
  SecretBinary : Option (List Nat)
deriving Repr, DecidableEq

/-- One entry of the response's `Errors` list (AWS SDK `APIErrorType`). -/
structure BatchApiError where
  SecretId : Option String
  ErrorCode : Option String
  Message : Option String
deriving Repr, DecidableEq

/-- The fields of the `BatchGetSecretValue` response used by the
source. -/
structure BatchGetSecretValueResponse where
  SecretValues : Option (List SecretValueEntry)
  Errors : Option (List BatchApiError)
  NextToken : Option String
deriving Repr, DecidableEq

/-- One entry of `BatchGetSecretResult.errors` from `types.ts`. -/
structure BatchResultError where
  secretId : Option String
  errorCode : Option String
  errorMessage : Option String
deriving Repr, DecidableEq

/-- Type `BatchGetSecretResult` from `types.ts`; `secrets` is a JS object,
modelled as an insertion-ordered association list. -/
structure BatchGetSecretResult where
  secrets : List (String × JsValue)
  errors : List BatchResultError
  nextToken : Option String
deriving Repr, DecidableEq

/-- The `for (const secretValue of response.SecretValues)` loop of
`batchGetSecrets`: entries with a falsy `Name` are skipped; a truthy
`SecretString` populates the map (parsed iff `options.parse` is
truthy); otherwise a present `SecretBinary` aborts the whole loop by
throwing; entries with neither payload are skipped. -/
def batchProcessValues (rt : JsonRuntime) (parseFlag : Bool) :
    List SecretValueEntry → List (String × JsValue) →
    Except SecretsManagerError (List (String × JsValue))
  | [], acc => .ok acc
  | entry :: rest, acc =>
    match entry.Name with
    | some name =>
      if name = "" then
        batchProcessValues rt parseFlag rest acc
      else
        match entry.SecretString with
        | some s =>
          if s = "" then
            if entry.SecretBinary.isSome then
              .error ⟨"Binary secrets are not supported", none⟩
            else
              batchProcessValues rt parseFlag rest acc
          else
            batchProcessValues rt parseFlag rest
              (setKey acc name (if parseFlag then parseSecretValue rt s else .str s))
        | none =>
          if entry.SecretBinary.isSome then
            .error ⟨"Binary secrets are not supported", none⟩
          else
            batchProcessValues rt parseFlag rest acc
    | none => batchProcessValues rt parseFlag rest acc

/-- The `catch` block of `batchGetSecrets` for errors thrown by the
client (an internally thrown `SecretsManagerError` is re-thrown
unchanged by the `instanceof SecretsManagerError` guard and never
reaches this dispatch). -/
def batchHandleError (error : JsError) : SecretsManagerError :=
  if error.name = "ResourceNotFoundException" then
    ⟨"One or more secrets not found", some error⟩
  else if error.name = "AccessDeniedException" then
    ⟨"Access denied to one or more secrets", some error⟩
  else if error.name = "ThrottlingException" then
    ⟨"Request throttled. Try again later.", some error⟩
  else
    formatError "Failed to retrieve secrets" (some error)

/-- Method `AWSSecretsManager.batchGetSecrets`, one call: processes the value
list (which may throw on a binary payload — re-thrown unchanged), maps
the per-item error list in order, and copies a truthy `NextToken`. -/
def batchGetSecrets (rt : JsonRuntime) (options : BatchGetSecretOptions)
    (send : Except JsError BatchGetSecretValueResponse) :
    Except SecretsManagerError BatchGetSecretResult :=
  match send with
  | .error e => .error (batchHandleError e)
  | .ok response =>
    match batchProcessValues rt (options.parse.getD false)
        (response.SecretValues.getD []) [] with
    | .error e => .error e
    | .ok secrets =>
      .ok
        { secrets := secrets
          errors := (response.Errors.getD []).map
            (fun e => ⟨e.SecretId, e.ErrorCode, e.Message⟩)
          nextToken :=
            if strTruthy response.NextToken then response.NextToken else none }

/-- Type `SecretOptions` from `types.ts`. -/
structure SecretOptions where
  description : Option String
  tags : Option (List (String × String))

/-- The default value of the `options` parameter of `createSecret` and
`updateSecret`. -/
def secretOptionsDefault : SecretOptions :=
  ⟨none, none⟩

/-- The `CreateSecretCommand` input built by `createSecret`. -/
structure CreateSecretRequest where
  Name : String
  SecretString : String
  Description : Option String
  Tags : Option (List (String × String))

/-- Value encoding shared by `createSecret` and `updateSecret`:
`typeof secretValue === "string" ? secretValue :
JSON.stringify(secretValue)`. -/
def encodeSecretValue (rt : JsonRuntime) (secretValue : JsValue) : String :=
  match secretValue with
  | .str s => s
  | v => rt.jsonStringify v

/-- Request construction in `createSecret`. -/
def createSecretRequest (rt : JsonRuntime) (secretName : String)
    (secretValue : JsValue) (options : SecretOptions) : CreateSecretRequest :=
  { Name := secretName
    SecretString := encodeSecretValue rt secretValue
    Description := options.description
    Tags := options.tags }

/-- The fields of the `CreateSecret` response used by the source. -/
structure CreateSecretResponse where
  ARN : Option String
deriving Repr, DecidableEq

/-- Method `AWSSecretsManager.createSecret`, one call: returns
`response.ARN || secretName`; any failure is wrapped as
"Failed to create secret". -/
def createSecret (rt : JsonRuntime) (secretName : String) (secretValue : JsValue)
    (options : SecretOptions) (send : Except JsError CreateSecretResponse) :
    Except SecretsManagerError String :=
  match send with
  | .ok response =>
    .ok (match response.ARN with
      | some a => if a = "" then secretName else a
      | none => secretName)
  | .error e => .error (formatError "Failed to create secret" (some e))

/-- The round trip of claim C7: `createSecret` computes the
`SecretString` payload, and `getSecret` is run against a service that
echoes that stored payload back. -/
def createThenGet (rt : JsonRuntime) (secretName : String) (secretValue : JsValue)
    (options : GetSecretOptions) : Except SecretsManagerError JsValue :=
  getSecret rt secretName options
    (.ok ⟨some (createSecretRequest rt secretName secretValue
      secretOptionsDefault).SecretString, none⟩)

/-- Type `DeleteSecretOptions` from `types.ts`. -/
structure DeleteSecretOptions where
  forceDelete : Option Bool
  recoveryDays : Option Int
deriving Repr, DecidableEq

/-- The `DeleteSecretCommand` input built by `deleteSecret`. -/
structure DeleteSecretRequest where
  SecretId : String
  ForceDeleteWithoutRecovery : Option Bool
  RecoveryWindowInDays : Option Int
deriving Repr, DecidableEq

/-- Request construction in `deleteSecret`:
`ForceDeleteWithoutRecovery: options.forceDelete`,
`RecoveryWindowInDays: options.forceDelete ? undefined :
options.recoveryDays || 30` (JS `||`: a provided `0` falls back to
`30`). -/
def deleteSecretRequest (secretName : String) (options : DeleteSecretOptions) :
    DeleteSecretRequest :=
  { SecretId := secretName
    ForceDeleteWithoutRecovery := options.forceDelete
    RecoveryWindowInDays :=
      if options.forceDelete.getD false then none
      else some (match options.recoveryDays with
        | some d => if d = 0 then 30 else d
        | none => 30) }

/-- The fields of the `DescribeSecret` response used by the source
(existence check and tag retrieval). -/
structure DescribeSecretResponse where
  ARN : Option String
  Tags : Option (List (Option String × Option String))
deriving Repr, DecidableEq

/-- Method `AWSSecretsManager.secretExists`, one call: success yields `true`,
`ResourceNotFoundException` yields `false`, everything else is wrapped
as "Failed to check secret existence". -/
def secretExists (secretName : String)
    (send : Except JsError DescribeSecretResponse) :
    Except SecretsManagerError Bool :=
  match send with
  | .ok _ => .ok true
  | .error e =>
    if e.name = "ResourceNotFoundException" then
      .ok false
    else
      .error (formatError "Failed to check secret existence" (some e))

/-- The `response.Tags.reduce` accumulator of `getTags`: a tag
contributes `acc[tag.Key] = tag.Value` only when both `tag.Key` and
`tag.Value` are truthy (present and non-empty). -/
def tagsReduce : List (Option String × Option String) → List (String × String) →
    List (String × String)
  | [], acc => acc
  | t :: rest, acc =>
    match t.1, t.2 with
    | some k, some v =>
      if k = "" ∨ v = "" then
        tagsReduce rest acc
      else
        tagsReduce rest (setKey acc k v)
    | _, _ => tagsReduce rest acc

/-- Method `AWSSecretsManager.getTags`, one call: empty map when `Tags` is
absent or empty, otherwise the reduce above; `ResourceNotFoundException`
maps to the named not-found message, everything else is wrapped as
"Failed to get secret tags". -/
def getTags (secretName : String)
    (send : Except JsError DescribeSecretResponse) :
    Except SecretsManagerError (List (String × String)) :=
  match send with
  | .ok response =>
    match response.Tags with
    | none => .ok []
    | some tags => if tags.isEmpty then .ok [] else .ok (tagsReduce tags [])
  | .error e =>
    if e.name = "ResourceNotFoundException" then
      .error ⟨"Secret \"" ++ secretName ++ "\" not found.", some e⟩
    else
      .error (formatError "Failed to get secret tags" (some e))

/-- One entry of the `ListSecretVersionIds` response's `Versions` list
(AWS SDK `SecretVersionsListEntry`); `CreatedDate` is an opaque
timestamp. -/
structure SecretVersionsListEntry where
  VersionId : Option String
  CreatedDate : Option Int
  VersionStages : Option (List String)
deriving Repr, DecidableEq

/-- The fields of the `ListSecretVersionIds` response used by the
source. -/
structure ListSecretVersionIdsResponse where
  Versions : Option (List SecretVersionsListEntry)
deriving Repr, DecidableEq

/-- One element of the result of `getSecretVersions`. -/
structure VersionRecord where
  versionId : String
  createdDate : Option Int
  isLatest : Bool
deriving Repr, DecidableEq

/-- The per-entry mapping of `getSecretVersions`:
`versionId: version.VersionId || "unknown"`,
`isLatest: version.VersionStages?.includes("AWSCURRENT") || false`. -/
def versionRecordOf (version : SecretVersionsListEntry) : VersionRecord :=
  { versionId :=
      match version.VersionId with
      | some id => if id = "" then "unknown" else id
      | none => "unknown"
    createdDate := version.CreatedDate
    isLatest :=
      match version.VersionStages with
      | some stages => stages.contains "AWSCURRENT"
      | none => false }

/-- Method `AWSSecretsManager.getSecretVersions`, one call. -/
def getSecretVersions (secretName : String)
    (send : Except JsError ListSecretVersionIdsResponse) :
    Except SecretsManagerError (List VersionRecord) :=
  match send with
  | .ok response => .ok ((response.Versions.getD []).map versionRecordOf)
  | .error e => .error (formatError "Failed to get secret versions" (some e))

/-- Helper: a string built around `sub` contains `sub` as a substring. -/
theorem stringIncludes_append (a sub b : String) :
    stringIncludes (a ++ sub ++ b) sub = true := by
  apply decide_eq_true
  refine ⟨a.toList, b.toList, ?_⟩
  simp [String.toList]

/-- Helper: every pair of `setKey m k v` comes from `m` or is `(k, v)`. -/
theorem setKey_mem {α : Type} {m : List (String × α)} {k k' : String} {v v' : α}
    (h : (k, v) ∈ setKey m k' v') : (k, v) ∈ m ∨ (k = k' ∧ v = v') := by
  unfold setKey at h
  split at h
  · rcases List.mem_map.mp h with ⟨p, hp, hpe⟩
    by_cases hk : p.1 = k'
    · rw [if_pos hk] at hpe
      right
      exact ⟨(Prod.mk.injEq .. ▸ hpe).1.symm, (Prod.mk.injEq .. ▸ hpe).2.symm⟩
    · rw [if_neg hk] at hpe
      left
      exact hpe ▸ hp
  · rcases List.mem_append.mp h with h1 | h1
    · exact Or.inl h1
    · right
      have := List.mem_singleton.mp h1
      exact ⟨(Prod.mk.injEq .. ▸ this).1, (Prod.mk.injEq .. ▸ this).2⟩

/-- Helper: `setKey m k v` contains `(k, v)`. -/
theorem setKey_self_mem {α : Type} (m : List (String × α)) (k : String) (v : α) :
    (k, v) ∈ setKey m k v := by
  unfold setKey
  split
  · next hany =>
    rcases List.any_eq_true.mp hany with ⟨p, hp, hpk⟩
    refine List.mem_map.mpr ⟨p, hp, ?_⟩
    rw [if_pos (of_decide_eq_true hpk)]
  · exact List.mem_append.mpr (Or.inr (List.mem_singleton.mpr rfl))

/-- Helper: `setKey` never removes a key. -/
theorem setKey_key_mem {α : Type} {m : List (String × α)} {k : String} {v : α}
    (k' : String) (v' : α) (h : (k, v) ∈ m) : ∃ w, (k, w) ∈ setKey m k' v' := by
  by_cases hk : k = k'
  · exact ⟨v', hk ▸ setKey_self_mem m k v'⟩
  · refine ⟨v, ?_⟩
    unfold setKey
    split
    · refine List.mem_map.mpr ⟨(k, v), h, ?_⟩
      rw [if_neg hk]
    · exact List.mem_append.mpr (Or.inl h)

/-- Helper: `tagsReduce` never removes a key from the accumulator. -/
theorem tagsReduce_key_mono :
    ∀ (tags : List (Option String × Option String))
      (acc : List (String × String)) (k : String) (v : String),
      (k, v) ∈ acc → ∃ w, (k, w) ∈ tagsReduce tags acc := by
  intro tags
  induction tags with
  | nil => exact fun acc k v h => ⟨v, h⟩
  | cons t rest ih =>
    intro acc k v h
    rcases t with ⟨tk, tv⟩
    cases tk with
    | none => exact ih acc k v h
    | some k' =>
      cases tv with
      | none => exact ih acc k v h
      | some v' =>
        simp only [tagsReduce]
        split
        · exact ih acc k v h
        · rcases setKey_key_mem k' v' h with ⟨w, hw⟩
          exact ih _ k w hw

/-- Helper: every pair produced by `tagsReduce` comes from the
accumulator or from a tag with truthy key and value. -/
theorem tagsReduce_sound :
    ∀ (tags : List (Option String × Option String))
      (acc : List (String × String)) (k : String) (v : String),
      (k, v) ∈ tagsReduce tags acc →
      (k, v) ∈ acc ∨
        ∃ t ∈ tags, t.1 = some k ∧ t.2 = some v ∧ k ≠ "" ∧ v ≠ "" := by
  intro tags
  induction tags with
  | nil => exact fun acc k v h => Or.inl h
  | cons t rest ih =>
    intro acc k v h
    rcases t with ⟨tk, tv⟩
    cases tk with
    | none =>
      rcases ih acc k v h with h1 | ⟨t, ht, hte⟩
      · exact Or.inl h1
      · exact Or.inr ⟨t, List.mem_cons_of_mem _ ht, hte⟩
    | some k' =>
      cases tv with
      | none =>
        rcases ih acc k v h with h1 | ⟨t, ht, hte⟩
        · exact Or.inl h1
        · exact Or.inr ⟨t, List.mem_cons_of_mem _ ht, hte⟩
      | some v' =>
        simp only [tagsReduce] at h
        split at h
        · next hempty =>
          rcases ih acc k v h with h1 | ⟨t, ht, hte⟩
          · exact Or.inl h1
          · exact Or.inr ⟨t, List.mem_cons_of_mem _ ht, hte⟩
        · next hempty =>
          rcases ih _ k v h with h1 | ⟨t, ht, hte⟩
          · rcases setKey_mem h1 with h2 | ⟨hk, hv⟩
            · exact Or.inl h2
            · refine Or.inr ⟨(some k', some v'), List.mem_cons_self .., ?_⟩
              push_neg at hempty
              exact ⟨by rw [hk], by rw [hv], hk ▸ hempty.1, hv ▸ hempty.2⟩
          · exact Or.inr ⟨t, List.mem_cons_of_mem _ ht, hte⟩

/-- Helper: every tag with truthy key and value contributes its key. -/
theorem tagsReduce_complete :
    ∀ (tags : List (Option String × Option String))
      (acc : List (String × String)) (t : Option String × Option String)
      (k v : String),
      t ∈ tags → t.1 = some k → t.2 = some v → k ≠ "" → v ≠ "" →
      ∃ w, (k, w) ∈ tagsReduce tags acc := by
  intro tags
  induction tags with
  | nil => intro _ _ _ _ h; exact absurd h (List.not_mem_nil _)
  | cons hd rest ih =>
    intro acc t k v hmem hk hv hke hve
    rcases List.mem_cons.mp hmem with heq | htl
    · subst heq
      rcases t with ⟨tk, tv⟩
      simp only at hk hv
      subst hk; subst hv
      simp only [tagsReduce]
      rw [if_neg (by push_neg; exact ⟨hke, hve⟩)]
      exact tagsReduce_key_mono rest _ k v (setKey_self_mem acc k v)
    · rcases hd with ⟨tk, tv⟩
      cases tk with
      | none => exact ih acc t k v htl hk hv hke hve
      | some k' =>
        cases tv with
        | none => exact ih acc t k v htl hk hv hke hve
        | some v' =>
          simp only [tagsReduce]
          split
          · exact ih acc t k v htl hk hv hke hve
          · exact ih _ t k v htl hk hv hke hve

/-- Helper: truthiness of an optional string field, unfolded. -/
theorem strTruthy_some_iff (s : String) : strTruthy (some s) = true ↔ s ≠ "" := by
  simp only [strTruthy, Bool.not_eq_true']
  rw [← Bool.not_eq_true, String.isEmpty_iff]

/-- Helper: the batch value loop never removes a key. -/
theorem batchProcessValues_key_mono (rt : JsonRuntime) (parseFlag : Bool) :
    ∀ (entries : List SecretValueEntry) (acc out : List (String × JsValue))
      (k : String) (v : JsValue),
      batchProcessValues rt parseFlag entries acc = .ok out →
      (k, v) ∈ acc → ∃ w, (k, w) ∈ out := by
  intro entries
  induction entries with
  | nil =>
    intro acc out k v hok h
    simp only [batchProcessValues] at hok
    exact ⟨v, (Except.ok.injEq .. ▸ hok) ▸ h⟩
  | cons entry rest ih =>
    intro acc out k v hok h
    rcases entry with ⟨nm, ss, sb⟩
    cases nm with
    | none => exact ih acc out k v hok h
    | some name =>
      simp only [batchProcessValues] at hok
      split at hok
      · exact ih acc out k v hok h
      · cases ss with
        | some s =>
          simp only at hok
          split at hok
          · split at hok
            · exact absurd hok (by simp)
            · exact ih acc out k v hok h
          · rcases setKey_key_mem name
              (if parseFlag then parseSecretValue rt s else .str s) h with ⟨w, hw⟩
            exact ih _ out k w hok hw
        | none =>
          simp only at hok
          split at hok
          · exact absurd hok (by simp)
          · exact ih acc out k v hok h

/-- Helper: every pair produced by the batch value loop comes from the
accumulator or from an entry with truthy name and truthy string
payload, with the value encoded per the parse flag. -/
theorem batchProcessValues_sound (rt : JsonRuntime) (parseFlag : Bool) :
    ∀ (entries : List SecretValueEntry) (acc out : List (String × JsValue))
      (k : String) (v : JsValue),
      batchProcessValues rt parseFlag entries acc = .ok out →
      (k, v) ∈ out →
      (k, v) ∈ acc ∨
        ∃ entry ∈ entries, entry.Name = some k ∧ k ≠ "" ∧
          ∃ s, entry.SecretString = some s ∧ s ≠ "" ∧
            v = (if parseFlag then parseSecretValue rt s else .str s) := by
  intro entries
  induction entries with
  | nil =>
    intro acc out k v hok h
    simp only [batchProcessValues] at hok
    exact Or.inl ((Except.ok.injEq .. ▸ hok) ▸ h)
  | cons entry rest ih =>
    intro acc out k v hok h
    rcases entry with ⟨nm, ss, sb⟩
    cases nm with
    | none =>
      rcases ih acc out k v hok h with h1 | ⟨t, ht, hte⟩
      · exact Or.inl h1
      · exact Or.inr ⟨t, List.mem_cons_of_mem _ ht, hte⟩
    | some name =>
      simp only [batchProcessValues] at hok
      split at hok
      · rcases ih acc out k v hok h with h1 | ⟨t, ht, hte⟩
        · exact Or.inl h1
        · exact Or.inr ⟨t, List.mem_cons_of_mem _ ht, hte⟩
      · next hname =>
        cases ss with
        | some s =>
          simp only at hok
          split at hok
          · split at hok
            · exact absurd hok (by simp)
            · rcases ih acc out k v hok h with h1 | ⟨t, ht, hte⟩
              · exact Or.inl h1
              · exact Or.inr ⟨t, List.mem_cons_of_mem _ ht, hte⟩
          · next hs =>
            rcases ih _ out k v hok h with h1 | ⟨t, ht, hte⟩
            · rcases setKey_mem h1 with h2 | ⟨hk, hv⟩
              · exact Or.inl h2
              · subst hk
                exact Or.inr ⟨⟨some k, some s, sb⟩, List.mem_cons_self ..,
                  rfl, hname, s, rfl, hs, hv⟩
            · exact Or.inr ⟨t, List.mem_cons_of_mem _ ht, hte⟩
        | none =>
          simp only at hok
          split at hok
          · exact absurd hok (by simp)
          · rcases ih acc out k v hok h with h1 | ⟨t, ht, hte⟩
            · exact Or.inl h1
            · exact Or.inr ⟨t, List.mem_cons_of_mem _ ht, hte⟩

/-- Helper: every entry with truthy name and truthy string payload
contributes its name to a successful batch value loop. -/
theorem batchProcessValues_complete (rt : JsonRuntime) (parseFlag : Bool) :
    ∀ (entries : List SecretValueEntry) (acc out : List (String × JsValue))
      (entry : SecretValueEntry) (k s : String),
      batchProcessValues rt parseFlag entries acc = .ok out →
      entry ∈ entries → entry.Name = some k → k ≠ "" →
      entry.SecretString = some s → s ≠ "" →
      ∃ w, (k, w) ∈ out := by
  intro entries
  induction entries with
  | nil => intro _ _ _ _ _ _ h; exact absurd h (List.not_mem_nil _)
  | cons hd rest ih =>
    intro acc out entry k s hok hmem hk hke hs hse
    rcases List.mem_cons.mp hmem with heq | htl
    · subst heq
      rcases entry with ⟨nm, ss, sb⟩
      simp only at hk hs
      subst hk; subst hs
      simp only [batchProcessValues] at hok
      rw [if_neg hke] at hok
      rw [if_neg hse] at hok
      exact batchProcessValues_key_mono rt parseFlag rest _ out k _ hok
        (setKey_self_mem acc k _)
    · rcases hd with ⟨nm, ss, sb⟩
      cases nm with
      | none => exact ih acc out entry k s hok htl hk hke hs hse
      | some name =>
        simp only [batchProcessValues] at hok
        split at hok
        · exact ih acc out entry k s hok htl hk hke hs hse
        · cases ss with
          | some s' =>
            simp only at hok
            split at hok
            · split at hok
              · exact absurd hok (by simp)
              · exact ih acc out entry k s hok htl hk hke hs hse
            · exact ih _ out entry k s hok htl hk hke hs hse
          | none =>
            simp only at hok
            split at hok
            · exact absurd hok (by simp)
            · exact ih acc out entry k s hok htl hk hke hs hse

/-- Helper: a named entry with a binary payload and no truthy string
payload makes the batch value loop throw, whatever else the list
holds. -/
theorem batchProcessValues_binary (rt : JsonRuntime) (parseFlag : Bool) :
    ∀ (entries : List SecretValueEntry) (acc : List (String × JsValue))
      (entry : SecretValueEntry),
      entry ∈ entries → strTruthy entry.Name = true →
      strTruthy entry.SecretString = false → entry.SecretBinary.isSome = true →
      batchProcessValues rt parseFlag entries acc =
        .error ⟨"Binary secrets are not supported", none⟩ := by
  intro entries
  induction entries with
  | nil => intro _ _ h; exact absurd h (List.not_mem_nil _)
  | cons hd rest ih =>
    intro acc entry hmem hname hstr hbin
    rcases List.mem_cons.mp hmem with heq | htl
    · subst heq
      rcases entry with ⟨nm, ss, sb⟩
      cases nm with
      | none => exact absurd hname (by simp [strTruthy])
      | some name =>
        have hne : name ≠ "" := (strTruthy_some_iff name).mp hname
        simp only [batchProcessValues]
        rw [if_neg hne]
        cases ss with
        | some s =>
          have hse : s = "" := by
            by_contra hc
            rw [(by simp [strTruthy_some_iff, hc] : strTruthy (some s) = true)] at hstr
            exact absurd hstr (by decide)
          subst hse
          simp [hbin]
        | none =>
          simp only
          rw [if_pos hbin]
    · rcases hd with ⟨nm, ss, sb⟩
      cases nm with
      | none => exact ih acc entry htl hname hstr hbin
      | some name =>
        simp only [batchProcessValues]
        split
        · exact ih acc entry htl hname hstr hbin
        · cases ss with
          | some s =>
            simp only
            split
            · split
              · rfl
              · exact ih acc entry htl hname hstr hbin
            · exact ih _ entry htl hname hstr hbin
          | none =>
            simp only
            split
            · rfl
            · exact ih acc entry htl hname hstr hbin

/-- C1, counterexample: the TS default `options = { parse: true }`
applies only when the caller omits the argument; an options object
setting only `version` leaves `parse` undefined (falsy), so the
payload `"1"` — which JSON-parses to the number 1 — is returned as the
raw string instead of being parsed, contrary to the claim's "default
when the caller passes an options object that sets only version".
Also, an empty textual payload is not returned but rejected. -/
theorem c1_counterexample :
    getSecretDefaultOptions.parse = some true ∧
    mockJsonRuntime.jsonParse "1" = some (.num 1) ∧
    getSecret mockJsonRuntime "config" ⟨none, some "v1"⟩ (.ok ⟨some "1", none⟩) =
      .ok (.str "1") ∧
    JsValue.str "1" ≠ JsValue.num 1 ∧
    getSecret mockJsonRuntime "config" getSecretDefaultOptions (.ok ⟨some "", none⟩) =
      .error ⟨"Failed to retrieve secret",
        some ⟨"SecretsManagerError", "Binary secrets are not supported"⟩⟩ :=
  ⟨rfl, rfl, rfl, by decide, rfl⟩

/-- C1 (amended): for every `getSecret` call whose response carries a
non-empty textual payload, the method returns that payload:
JSON-parsed when the `parse` option is `true` — the default
`{parse: true}` applying only when the caller omits the options
argument entirely — falling back to the raw string when JSON parsing
fails (parse failure is not an error), and returning the raw string
unmodified whenever `parse` is not set to `true` (including when the
caller passes an options object that sets only `version`). -/
theorem c1_getSecret_parse_behavior (rt : JsonRuntime) (secretName : String)
    (options : GetSecretOptions) (s : String) (bin : Option (List Nat))
    (hs : s ≠ "") :
    (options.parse = some true →
      (∀ v, rt.jsonParse s = some v →
        getSecret rt secretName options (.ok ⟨some s, bin⟩) = .ok v) ∧
      (rt.jsonParse s = none →
        getSecret rt secretName options (.ok ⟨some s, bin⟩) = .ok (.str s))) ∧
    (options.parse ≠ some true →
      getSecret rt secretName options (.ok ⟨some s, bin⟩) = .ok (.str s)) ∧
    getSecretDefaultOptions.parse = some true := by
  refine ⟨?_, ?_, rfl⟩
  · intro hp
    constructor
    · intro v hv
      simp [getSecret, hs, hp, hv]
    · intro hv
      simp [getSecret, hs, hp, hv]
  · intro hp
    have hfalse : options.parse.getD false = false := by
      cases h : options.parse with
      | none => rfl
      | some b =>
        cases b with
        | true => exact absurd h hp
        | false => rfl
    simp [getSecret, hs, hfalse]

/-- C1, witness: with `parse` explicitly `true` the payload `"1"` is
returned JSON-parsed. -/
theorem c1_witness :
    getSecret mockJsonRuntime "config" ⟨some true, none⟩ (.ok ⟨some "1", none⟩) =
      .ok (.num 1) :=
  ((c1_getSecret_parse_behavior mockJsonRuntime "config" ⟨some true, none⟩ "1" none
    (by decide)).1 rfl).1 (.num 1) rfl

/-- C2 (code bug, actual behavior): on a binary-only response,
`getSecret` throws `SecretsManagerError("Binary secrets are not
supported")` inside its own `try`, and its `catch` — which, unlike
`batchGetSecrets`, has no `instanceof SecretsManagerError` re-throw
guard — re-wraps it, so the call fails with the generic message
"Failed to retrieve secret" (the spec's `Unknown` kind) wrapping the
internal error, instead of failing directly with the
`UnsupportedFormat` message.  The binary payload is still never
returned as a value. -/
theorem c2_binary_secret_wrapped (rt : JsonRuntime) (secretName : String)
    (options : GetSecretOptions) (bin : List Nat) :
    getSecret rt secretName options (.ok ⟨none, some bin⟩) =
      .error ⟨"Failed to retrieve secret",
        some ⟨"SecretsManagerError", "Binary secrets are not supported"⟩⟩ := rfl

/-- C3, counterexample: a response whose only entry carries a binary
payload but no name is skipped by the `if (secretValue.Name)` guard,
and the call succeeds — refuting "for every response containing at
least one entry carrying only a binary payload, the entire call
fails". -/
theorem c3_counterexample :
    batchGetSecrets mockJsonRuntime ⟨["s1"], none, none, none, some true⟩
      (.ok ⟨some [⟨none, none, some [0]⟩], none, none⟩) = .ok ⟨[], [], none⟩ := rfl

/-- C3 (amended): for every `batchGetSecrets` call whose service
response contains at least one NAMED entry carrying a binary payload
and no non-empty textual payload, the entire call fails with the
`UnsupportedFormat` error ("Binary secrets are not supported"),
regardless of how many other valid textual entries are present; the
binary entry is not skipped per-item (entries without a name are
skipped entirely, whatever their payload). -/
theorem c3_batch_binary_fails_whole_call (rt : JsonRuntime)
    (options : BatchGetSecretOptions) (response : BatchGetSecretValueResponse)
    (entry : SecretValueEntry) (hmem : entry ∈ response.SecretValues.getD [])
    (hname : strTruthy entry.Name = true)
    (hstr : strTruthy entry.SecretString = false)
    (hbin : entry.SecretBinary.isSome = true) :
    batchGetSecrets rt options (.ok response) =
      .error ⟨"Binary secrets are not supported", none⟩ := by
  have hloop := batchProcessValues_binary rt (options.parse.getD false)
    (response.SecretValues.getD []) [] entry hmem hname hstr hbin
  simp [batchGetSecrets, hloop]

/-- C3, witness: a named binary entry fails the call even when a valid
textual entry precedes it. -/
theorem c3_witness :
    batchGetSecrets mockJsonRuntime ⟨["s1", "s2"], none, none, none, some true⟩
      (.ok ⟨some [⟨some "s1", some "v1", none⟩, ⟨some "s2", none, some [0]⟩],
        none, none⟩) =
      .error ⟨"Binary secrets are not supported", none⟩ :=
  c3_batch_binary_fails_whole_call mockJsonRuntime
    ⟨["s1", "s2"], none, none, none, some true⟩
    ⟨some [⟨some "s1", some "v1", none⟩, ⟨some "s2", none, some [0]⟩], none, none⟩
    ⟨some "s2", none, some [0]⟩ (by simp) rfl rfl rfl

/-- C4, counterexample: a caller-provided `recoveryDays` of `0` is
falsy under JS `||`, so the request carries the default window of 30
days, not the provided 0 — refuting "for every provided number,
including 0". -/
theorem c4_counterexample :
    (deleteSecretRequest "s" ⟨none, some 0⟩).RecoveryWindowInDays = some 30 ∧
    (some (30 : Int) ≠ some (0 : Int)) :=
  ⟨rfl, by decide⟩

/-- C4 (amended): with `forceDelete` true no recovery-window value is
sent; without `forceDelete`, the window sent equals the caller-given
`recoveryDays` whenever a NON-ZERO `recoveryDays` is provided, and 30
otherwise (a provided 0 falls back to the default 30); `forceDelete`
and a recovery window are never both present in the transmitted
request. -/
theorem c4_deleteSecret_recovery_window (secretName : String)
    (options : DeleteSecretOptions) :
    (options.forceDelete = some true →
      (deleteSecretRequest secretName options).RecoveryWindowInDays = none) ∧
    (options.forceDelete ≠ some true → ∀ d : Int, options.recoveryDays = some d →
      d ≠ 0 →
      (deleteSecretRequest secretName options).RecoveryWindowInDays = some d) ∧
    (options.forceDelete ≠ some true →
      (options.recoveryDays = none ∨ options.recoveryDays = some 0) →
      (deleteSecretRequest secretName options).RecoveryWindowInDays = some 30) ∧
    ¬((deleteSecretRequest secretName options).ForceDeleteWithoutRecovery = some true ∧
      (deleteSecretRequest secretName options).RecoveryWindowInDays ≠ none) := by
  have hgetD : ∀ b, options.forceDelete = b → b ≠ some true →
      options.forceDelete.getD false = false := by
    intro b hb hbne
    cases b with
    | none => simp [hb]
    | some v =>
      cases v with
      | true => exact absurd rfl hbne
      | false => simp [hb]
  refine ⟨?_, ?_, ?_, ?_⟩
  · intro h
    simp [deleteSecretRequest, h]
  · intro h d hd hdne
    have := hgetD options.forceDelete rfl h
    simp [deleteSecretRequest, this, hd, hdne]
  · intro h hd
    have := hgetD options.forceDelete rfl h
    rcases hd with hd | hd <;> simp [deleteSecretRequest, this, hd]
  · rintro ⟨hforce, hwin⟩
    have hf : options.forceDelete = some true := hforce
    exact hwin (by simp [deleteSecretRequest, hf])

/-- C4, witness: force delete sends no window; a non-zero
`recoveryDays` of 7 is sent as 7; an omitted `recoveryDays` sends
30. -/
theorem c4_witness :
    (deleteSecretRequest "a" ⟨some true, some 5⟩).RecoveryWindowInDays = none ∧
    (deleteSecretRequest "b" ⟨none, some 7⟩).RecoveryWindowInDays = some 7 ∧
    (deleteSecretRequest "c" ⟨none, none⟩).RecoveryWindowInDays = some 30 :=
  ⟨(c4_deleteSecret_recovery_window "a" ⟨some true, some 5⟩).1 rfl,
   (c4_deleteSecret_recovery_window "b" ⟨none, some 7⟩).2.1 (by simp) 7 rfl (by decide),
   (c4_deleteSecret_recovery_window "c" ⟨none, none⟩).2.2.1 (by simp) (Or.inl rfl)⟩

/-- C5: when the underlying service call fails, `getSecret` maps the
failure by condition: `InvalidRequestException` mentioning "marked for
deletion" yields the invalid-state message, `ResourceNotFoundException`
yields a not-found message that contains the requested name,
`AccessDeniedException` yields the access-denied message,
`ThrottlingException` yields the throttled message, and every other
failure yields the generic "Failed to retrieve secret" wrapping the
original error. -/
theorem c5_getSecret_error_mapping (rt : JsonRuntime) (secretName : String)
    (options : GetSecretOptions) (e : JsError) :
    (e.name = "InvalidRequestException" →
      stringIncludes e.message "marked for deletion" = true →
      getSecret rt secretName options (.error e) =
        .error ⟨"The requested secret is marked for deletion and cannot be accessed.",
          some e⟩) ∧
    (e.name = "ResourceNotFoundException" →
      getSecret rt secretName options (.error e) =
        .error ⟨"Secret \"" ++ secretName ++ "\" not found.", some e⟩ ∧
      stringIncludes ("Secret \"" ++ secretName ++ "\" not found.") secretName = true) ∧
    (e.name = "AccessDeniedException" →
      getSecret rt secretName options (.error e) =
        .error ⟨"Access denied to the requested secret.", some e⟩) ∧
    (e.name = "ThrottlingException" →
      getSecret rt secretName options (.error e) =
        .error ⟨"Request throttled. Try again later.", some e⟩) ∧
    (¬(e.name = "InvalidRequestException" ∧
        stringIncludes e.message "marked for deletion" = true) →
      e.name ≠ "ResourceNotFoundException" →
      e.name ≠ "AccessDeniedException" →
      e.name ≠ "ThrottlingException" →
      getSecret rt secretName options (.error e) =
        .error ⟨"Failed to retrieve secret", some e⟩) := by
  refine ⟨?_, ?_, ?_, ?_, ?_⟩
  · intro h1 h2
    show Except.error (getSecretHandleError secretName e) = _
    unfold getSecretHandleError
    rw [if_pos ⟨h1, h2⟩]
  · intro h1
    refine ⟨?_, stringIncludes_append "Secret \"" secretName "\" not found."⟩
    show Except.error (getSecretHandleError secretName e) = _
    unfold getSecretHandleError
    rw [if_neg (fun hc => by rw [h1] at hc; exact absurd hc.1 (by decide)), if_pos h1]
  · intro h1
    show Except.error (getSecretHandleError secretName e) = _
    unfold getSecretHandleError
    rw [if_neg (fun hc => by rw [h1] at hc; exact absurd hc.1 (by decide)),
      if_neg (by rw [h1]; decide), if_pos h1]
  · intro h1
    show Except.error (getSecretHandleError secretName e) = _
    unfold getSecretHandleError
    rw [if_neg (fun hc => by rw [h1] at hc; exact absurd hc.1 (by decide)),
      if_neg (by rw [h1]; decide), if_neg (by rw [h1]; decide), if_pos h1]
  · intro h1 h2 h3 h4
    show Except.error (getSecretHandleError secretName e) = _
    unfold getSecretHandleError
    rw [if_neg h1, if_neg h2, if_neg h3, if_neg h4]
    rfl

/-- C5, witness: a not-found failure for `"non-existent-secret"` maps
to the not-found message containing the name, and an unrecognized
failure maps to the generic wrapper. -/
theorem c5_witness :
    (getSecret mockJsonRuntime "non-existent-secret" getSecretDefaultOptions
      (.error ⟨"ResourceNotFoundException", "no such secret"⟩) =
      .error ⟨"Secret \"non-existent-secret\" not found.",
        some ⟨"ResourceNotFoundException", "no such secret"⟩⟩ ∧
    stringIncludes "Secret \"non-existent-secret\" not found."
      "non-existent-secret" = true) ∧
    getSecret mockJsonRuntime "s" getSecretDefaultOptions
      (.error ⟨"InternalServiceError", "boom"⟩) =
      .error ⟨"Failed to retrieve secret",
        some ⟨"InternalServiceError", "boom"⟩⟩ :=
  ⟨(c5_getSecret_error_mapping mockJsonRuntime "non-existent-secret"
      getSecretDefaultOptions ⟨"ResourceNotFoundException", "no such secret"⟩).2.1 rfl,
   (c5_getSecret_error_mapping mockJsonRuntime "s" getSecretDefaultOptions
      ⟨"InternalServiceError", "boom"⟩).2.2.2.2 (by decide) (by decide) (by decide)
      (by decide)⟩

/-- C6, counterexample: a value-list entry with a name but no payload
fields populates nothing (refuting "every item in the response's value
list populates the secrets mapping"), and a present-but-empty
`NextToken` is dropped from the result. -/
theorem c6_counterexample :
    batchGetSecrets mockJsonRuntime ⟨["a"], none, none, none, some true⟩
      (.ok ⟨some [⟨some "a", none, none⟩], some [], some ""⟩) =
      .ok ⟨[], [], none⟩ := rfl

/-- C6 (amended): a successful `batchGetSecrets` call partitions the
response: every value-list item carrying a non-empty name and a
non-empty textual payload populates the `secrets` mapping by name
(items lacking either are skipped and appear nowhere), every pair in
`secrets` stems from such an item with the value encoded per the
`parse` flag, the result's error list is exactly the response's error
list mapped to `{secretId, errorCode, errorMessage}` in service order
(never raised), and the continuation token is present in the result if
and only if the service returned a non-empty `NextToken`. -/
theorem c6_batch_result_partition (rt : JsonRuntime)
    (options : BatchGetSecretOptions) (response : BatchGetSecretValueResponse)
    (result : BatchGetSecretResult)
    (h : batchGetSecrets rt options (.ok response) = .ok result) :
    (∀ entry ∈ response.SecretValues.getD [], ∀ name s : String,
      entry.Name = some name → name ≠ "" →
      entry.SecretString = some s → s ≠ "" →
      ∃ v, (name, v) ∈ result.secrets) ∧
    (∀ name v, (name, v) ∈ result.secrets →
      ∃ entry ∈ response.SecretValues.getD [], entry.Name = some name ∧
        name ≠ "" ∧ ∃ s, entry.SecretString = some s ∧ s ≠ "" ∧
          v = (if options.parse.getD false then parseSecretValue rt s
            else .str s)) ∧
    result.errors = (response.Errors.getD []).map
      (fun e => ⟨e.SecretId, e.ErrorCode, e.Message⟩) ∧
    result.nextToken =
      (if strTruthy response.NextToken then response.NextToken else none) := by
  have hunfold : batchGetSecrets rt options (.ok response) =
      (match batchProcessValues rt (options.parse.getD false)
          (response.SecretValues.getD []) [] with
        | Except.error e => Except.error e
        | Except.ok secrets =>
          Except.ok ⟨secrets,
            (response.Errors.getD []).map
              (fun e => ⟨e.SecretId, e.ErrorCode, e.Message⟩),
            if strTruthy response.NextToken then response.NextToken else none⟩) :=
    rfl
  rw [hunfold] at h
  cases hloop : batchProcessValues rt (options.parse.getD false)
      (response.SecretValues.getD []) [] with
  | error e =>
    rw [hloop] at h
    exact absurd h (by simp)
  | ok secrets =>
    rw [hloop] at h
    simp only [Except.ok.injEq] at h
    subst h
    refine ⟨?_, ?_, rfl, rfl⟩
    · intro entry hmem name s hn hne hs hse
      exact batchProcessValues_complete rt (options.parse.getD false)
        (response.SecretValues.getD []) [] secrets entry name s hloop hmem hn hne
        hs hse
    · intro name v hv
      rcases batchProcessValues_sound rt (options.parse.getD false)
        (response.SecretValues.getD []) [] secrets name v hloop hv with h1 | h2
      · exact absurd h1 (List.not_mem_nil _)
      · exact h2

/-- C6, witness: a response with one textual value, one per-item error
and a non-empty token yields a result whose `secrets` contains the
value's name. -/
theorem c6_witness :
    ∃ v, ("a", v) ∈
      (⟨[("a", JsValue.num 1)],
        [⟨some "b", some "ResourceNotFoundException", some "nf"⟩],
        some "tok"⟩ : BatchGetSecretResult).secrets :=
  (c6_batch_result_partition mockJsonRuntime ⟨["a", "b"], none, none, none, some true⟩
    ⟨some [⟨some "a", some "1", none⟩],
      some [⟨some "b", some "ResourceNotFoundException", some "nf"⟩], some "tok"⟩
    ⟨[("a", JsValue.num 1)],
      [⟨some "b", some "ResourceNotFoundException", some "nf"⟩], some "tok"⟩
    rfl).1 ⟨some "a", some "1", none⟩ (by simp) "a" "1" rfl (by decide) rfl
    (by decide)

/-- C7, counterexample: the empty string round trip fails:
`createSecret(name, "")` stores the payload `""`, which `getSecret`
treats as falsy and rejects through its binary-payload branch instead
of returning `""`. -/
theorem c7_counterexample :
    createThenGet mockJsonRuntime "n" (.str "") ⟨some false, none⟩ =
      .error ⟨"Failed to retrieve secret",
        some ⟨"SecretsManagerError", "Binary secrets are not supported"⟩⟩ := rfl

/-- C7 (amended): for every NON-EMPTY string `v`, `createSecret(name,
v)` followed by `getSecret(name, parse=false)` against a service that
returns the stored payload yields exactly `v`; and for every
non-string JSON-serializable value `v` (one whose JSON text is
non-empty and parses back to `v`), `createSecret(name, v)` followed by
`getSecret(name)` with the default `parse=true` yields `v`. -/
theorem c7_roundTrip (rt : JsonRuntime) (secretName : String) :
    (∀ s : String, s ≠ "" →
      createThenGet rt secretName (.str s) ⟨some false, none⟩ = .ok (.str s)) ∧
    (∀ v : JsValue, (∀ s, v ≠ .str s) → rt.jsonStringify v ≠ "" →
      rt.jsonParse (rt.jsonStringify v) = some v →
      createThenGet rt secretName v getSecretDefaultOptions = .ok v) := by
  constructor
  · intro s hs
    simp [createThenGet, createSecretRequest, encodeSecretValue, getSecret, hs]
  · intro v hv hne hparse
    have henc : encodeSecretValue rt v = rt.jsonStringify v := by
      cases v with
      | str s => exact absurd rfl (hv s)
      | num n => rfl
      | bool b => rfl
      | null => rfl
    simp [createThenGet, createSecretRequest, getSecret, henc, hne, hparse,
      getSecretDefaultOptions]

/-- C7, witness: the string `"hello"` and the number 7 both round
trip. -/
theorem c7_witness :
    createThenGet mockJsonRuntime "n" (.str "hello") ⟨some false, none⟩ =
      .ok (.str "hello") ∧
    createThenGet mockJsonRuntime "n" (.num 7) getSecretDefaultOptions =
      .ok (.num 7) :=
  ⟨(c7_roundTrip mockJsonRuntime "n").1 "hello" (by decide),
   (c7_roundTrip mockJsonRuntime "n").2 (.num 7) (fun s => by simp) (by decide) rfl⟩

/-- C8: `secretExists` yields `true` on a successful metadata lookup,
`false` (not an error) on a `ResourceNotFoundException`, and wraps
every other failure as "Failed to check secret existence". -/
theorem c8_secretExists_mapping (secretName : String) :
    (∀ response : DescribeSecretResponse,
      secretExists secretName (.ok response) = .ok true) ∧
    (∀ e : JsError, e.name = "ResourceNotFoundException" →
      secretExists secretName (.error e) = .ok false) ∧
    (∀ e : JsError, e.name ≠ "ResourceNotFoundException" →
      secretExists secretName (.error e) =
        .error ⟨"Failed to check secret existence", some e⟩) := by
  refine ⟨fun response => rfl, ?_, ?_⟩
  · intro e he
    simp [secretExists, he]
  · intro e he
    simp [secretExists, he, formatError]

/-- C8, witness: the three outcomes at concrete inputs. -/
theorem c8_witness :
    secretExists "s" (.ok ⟨some "arn", none⟩) = .ok true ∧
    secretExists "s" (.error ⟨"ResourceNotFoundException", "nf"⟩) = .ok false ∧
    secretExists "s" (.error ⟨"InternalServiceError", "boom"⟩) =
      .error ⟨"Failed to check secret existence",
        some ⟨"InternalServiceError", "boom"⟩⟩ :=
  ⟨(c8_secretExists_mapping "s").1 ⟨some "arn", none⟩,
   (c8_secretExists_mapping "s").2.1 ⟨"ResourceNotFoundException", "nf"⟩ rfl,
   (c8_secretExists_mapping "s").2.2 ⟨"InternalServiceError", "boom"⟩ (by decide)⟩

/-- C9: a successful `getSecretVersions` keeps every reported version
(same length, nothing dropped), marks `isLatest` true exactly when the
version's stage list contains `"AWSCURRENT"`, and represents a version
reported without an identifier with the sentinel `"unknown"`. -/
theorem c9_getSecretVersions_mapping (secretName : String)
    (response : ListSecretVersionIdsResponse) (out : List VersionRecord)
    (h : getSecretVersions secretName (.ok response) = .ok out) :
    out.length = (response.Versions.getD []).length ∧
    ∀ i (h1 : i < out.length) (h2 : i < (response.Versions.getD []).length),
      (out[i].isLatest = true ↔
        ((response.Versions.getD [])[i].VersionStages.getD []).contains
          "AWSCURRENT" = true) ∧
      ((response.Versions.getD [])[i].VersionId = none →
        out[i].versionId = "unknown") := by
  have h' : (response.Versions.getD []).map versionRecordOf = out := by
    simpa [getSecretVersions] using h
  subst h'
  refine ⟨by simp, ?_⟩
  intro i h1 h2
  constructor
  · rw [List.getElem_map]
    rcases hvs : ((response.Versions.getD [])[i]).VersionStages with _ | stages
    · simp [versionRecordOf, hvs]
    · simp [versionRecordOf, hvs]
  · intro hid
    rw [List.getElem_map]
    simp [versionRecordOf, hid]

/-- C9, witness: a single version without identifier and without
stages is kept, with sentinel id `"unknown"`. -/
theorem c9_witness :
    ([(⟨"unknown", none, false⟩ : VersionRecord)]).length =
      ([(⟨none, none, none⟩ : SecretVersionsListEntry)]).length ∧
    (([(⟨"unknown", none, false⟩ : VersionRecord)])[0]).versionId = "unknown" := by
  have hmain := c9_getSecretVersions_mapping "s" ⟨some [⟨none, none, none⟩]⟩
    [⟨"unknown", none, false⟩] rfl
  exact ⟨hmain.1, (hmain.2 0 (by decide) (by decide)).2 rfl⟩

/-- C10: on a successful `getTags` call, every pair of the returned
mapping stems from a reported tag whose key and value are both present
and non-empty, and every such tag contributes its key to the mapping —
tags with a missing or empty key or value are silently omitted. -/
theorem c10_getTags_filtering (secretName : String)
    (response : DescribeSecretResponse) (m : List (String × String))
    (h : getTags secretName (.ok response) = .ok m) :
    (∀ k v, (k, v) ∈ m →
      ∃ t ∈ response.Tags.getD [], t.1 = some k ∧ t.2 = some v ∧
        k ≠ "" ∧ v ≠ "") ∧
    (∀ t ∈ response.Tags.getD [], ∀ k v, t.1 = some k → t.2 = some v →
      k ≠ "" → v ≠ "" → ∃ w, (k, w) ∈ m) := by
  cases htags : response.Tags with
  | none =>
    have hm : [] = m := by simpa [getTags, htags] using h
    subst hm
    refine ⟨fun k v hkv => absurd hkv (List.not_mem_nil _), ?_⟩
    intro t ht
    exact absurd ht (List.not_mem_nil _)
  | some tags =>
    by_cases hemp : tags.isEmpty
    · have htnil : tags = [] := List.isEmpty_iff.mp hemp
      subst htnil
      have hm : [] = m := by simpa [getTags, htags] using h
      subst hm
      refine ⟨fun k v hkv => absurd hkv (List.not_mem_nil _), ?_⟩
      intro t ht
      exact absurd ht (List.not_mem_nil _)
    · have hm : tagsReduce tags [] = m := by
        simpa [getTags, htags, hemp] using h
      subst hm
      constructor
      · intro k v hkv
        rcases tagsReduce_sound tags [] k v hkv with h1 | ⟨t, ht, hte⟩
        · exact absurd h1 (List.not_mem_nil _)
        · exact ⟨t, ht, hte⟩
      · intro t ht k v h1 h2 h3 h4
        exact tagsReduce_complete tags [] t k v ht h1 h2 h3 h4

/-- C10, witness: a good tag survives, tags with an empty key, an
empty value, or a missing value are omitted. -/
theorem c10_witness :
    (∃ t ∈ [((some "env" : Option String), (some "prod" : Option String)),
        (some "", some "x"), (some "k", none)],
      t.1 = some "env" ∧ t.2 = some "prod" ∧ "env" ≠ "" ∧ "prod" ≠ "") ∧
    ∃ w, ("env", w) ∈ [("env", "prod")] := by
  have hmain := c10_getTags_filtering "s"
    ⟨none, some [(some "env", some "prod"), (some "", some "x"), (some "k", none)]⟩
    [("env", "prod")] rfl
  exact ⟨hmain.1 "env" "prod" (by simp),
    hmain.2 (some "env", some "prod") (by simp) "env" "prod" rfl rfl (by decide)
      (by decide)⟩
